import Mathlib

set_option maxRecDepth 4000

/-!
Verification of the HR-Mate-AI scoring engine (`scorer.py`, `config.py`).

The Python code is shallowly embedded: Python numbers (ints and floats) are
modelled as exact rationals `ℚ`, dynamically-typed values as the inductive
`PyVal`, records (dicts keyed by strings) as association lists, `datetime`
values as rational seconds since the Unix epoch (timezone fixed to UTC), and
a Python exception aborting a computation as `Except.error ()`.

External library functions are modelled as follows and documented at their
definitions: `fuzzywuzzy.fuzz.ratio` as the Levenshtein-based similarity of
the python-Levenshtein backend, `dateutil.parser.parse` restricted to
`YYYY-MM-DD` calendar strings (every other string is treated as unparseable),
`json.loads` conservatively as never decoding (no theorem below depends on a
successful decode), and `str()` exactly on `None` and string inputs (the only
cases the theorems exercise).  Explanation/detail strings produced by the
code are not modelled; theorems speak about the numeric contents of reports.
-/

/-! ## Dynamically-typed Python values -/

/-! ## Calendar arithmetic

`datetime` values are rational seconds since the Unix epoch, timezone fixed
to UTC (the code uses the process-local zone; the choice is irrelevant to
every claim, which compare dates to each other). -/

/-! ## The text-similarity primitive (`fuzz.ratio`) -/

/-! ## CEFR scale and the language scorer -/

/-! ## Location / flexibility scorer -/

/-! ## Availability projector -/

/-! ## List-overlap scorers (products / certifications / expertise) -/

/-! ## Skill-capability vs. complexity scorer -/

/-! ## Field decoding, aggregation and the scoring pipeline -/

/-! ## Arithmetic and list helper lemmas -/

/-! ## Input-domain predicates (decidable, on the values the scorers receive) -/

/-! ## Range lemmas for the factor scorers -/

/-! ## The documented input domain of the pipeline (decidable predicates) -/

/-! ## Claim theorems -/

/-- The Python `round()` to an integer: round half to even (banker rounding),
on an exact rational input. -/
def rhe (x : ℚ) : ℤ :=
  if x - ⌊x⌋ < 1/2 then ⌊x⌋
  else if 1/2 < x - ⌊x⌋ then ⌊x⌋ + 1
  else if ⌊x⌋ % 2 = 0 then ⌊x⌋ else ⌊x⌋ + 1

/-- The Python `round(x, p)`: round to `p` decimal places, half to even.
Floats are modelled as exact rationals, so this is decimal-exact rounding. -/
def pyRound (x : ℚ) (p : ℕ) : ℚ := (rhe (x * 10 ^ p) : ℚ) / 10 ^ p

/-- A dynamically-typed Python value as it occurs in the employee / project
records: `None`, a number (int or float, modelled as an exact rational), a
string, a list, or a string-keyed dict (modelled as an association list in
insertion order, keys unique as in a Python dict). -/
inductive PyVal where
  | none : PyVal
  | num : ℚ → PyVal
  | str : String → PyVal
  | list : List PyVal → PyVal
  | dict : List (String × PyVal) → PyVal

/-- An employee or project record: a Python dict keyed by field names. -/
def Record := List (String × PyVal)

/-- First-match association-list lookup (Python dict lookup; keys are unique). -/
def lookupStr {α : Type} : List (String × α) → String → Option α
  | [], _ => Option.none
  | (k, v) :: t, q => if k = q then some v else lookupStr t q

/-- `record.get(field)`: `None` when the field is absent. -/
def rget (r : Record) (f : String) : PyVal := (lookupStr r f).getD PyVal.none

/-- `record.get(field, default)`. -/
def rgetD (r : Record) (f : String) (d : PyVal) : PyVal := (lookupStr r f).getD d

/-- Python truthiness of a value (`bool(x)`). -/
def pyTruthy : PyVal → Bool
  | .none => false
  | .num q => decide (q ≠ 0)
  | .str s => decide (s ≠ "")
  | .list l => !l.isEmpty
  | .dict d => !d.isEmpty

/-- Python `str(x)`.  Exact on `None` and strings — the only cases reached by
the theorems below; numeric and container representations are abbreviated
stand-ins for the CPython representations. -/
def pyStr : PyVal → String
  | .none => "None"
  | .str s => s
  | .num q => if q.den = 1 then toString q.num else toString q.num ++ "." ++ toString q.den
  | .list _ => "[...]"
  | .dict _ => "(dict)"

/-- Is `pat` a prefix of `l`? (charwise, kernel-computable). -/
def isPrefixChars : List Char → List Char → Bool
  | [], _ => true
  | _ :: _, [] => false
  | p :: ps, x :: xs => p = x && isPrefixChars ps xs

/-- The Python `pat in s` substring test for a non-empty literal `pat`. -/
def containsSubstr (s pat : String) : Bool := go pat.data s.data where
  go (pat : List Char) : List Char → Bool
    | [] => pat.isEmpty
    | x :: xs => isPrefixChars pat (x :: xs) || go pat xs

/-- Charwise lowercasing — the Python `str.lower()` (ASCII range, which covers
every string the theorems exercise). -/
def pyLower (s : String) : String := String.mk (s.data.map Char.toLower)

/-- Charwise uppercasing — the Python `str.upper()` (ASCII range). -/
def pyUpper (s : String) : String := String.mk (s.data.map Char.toUpper)

/-- The Python `str.strip()`: remove leading and trailing whitespace. -/
def pyStrip (s : String) : String :=
  let ws : Char → Bool := fun c => c = ' ' || c = '\t' || c = '\n' || c = '\r'
  String.mk (((s.data.dropWhile ws).reverse.dropWhile ws).reverse)

/-- Gregorian leap year. -/
def isLeap (y : ℕ) : Bool := (y % 4 = 0 && y % 100 ≠ 0) || y % 400 = 0

/-- Days in a month of the proleptic Gregorian calendar. -/
def daysInMonth (y m : ℕ) : ℕ :=
  if m = 2 then (if isLeap y then 29 else 28)
  else if m = 4 ∨ m = 6 ∨ m = 9 ∨ m = 11 then 30
  else 31

/-- Days from 1970-01-01 to the civil date `y-m-d` (valid for `y ≥ 1970`;
standard era-based civil-calendar algorithm). -/
def daysSinceEpoch (y m d : ℕ) : ℕ :=
  let ys := if m ≤ 2 then y - 1 else y
  let era := ys / 400
  let yoe := ys % 400
  let mp := if m > 2 then m - 3 else m + 9
  let doy := (153 * mp + 2) / 5 + (d - 1)
  let doe := yoe * 365 + yoe / 4 - yoe / 100 + doy
  era * 146097 + doe - 719468

/-- The calendar day (days since 1970-01-01, UTC) of an epoch instant given
in seconds — the date part that `strftime` with format `%Y-%m-%d` exposes. -/
def epochDay (t : ℚ) : ℤ := ⌊t / 86400⌋

/-- Digit-string to number (kernel-computable `toNat?`). -/
def digitsToNat? (l : List Char) : Option ℕ :=
  if !l.isEmpty && l.all Char.isDigit then
    some (l.foldl (fun a c => a * 10 + (c.toNat - 48)) 0)
  else Option.none

/-- `int(s)`-style strict decimal parse: optional leading minus, then digits. -/
def parseIntStr (s : String) : Option ℤ :=
  match s.data with
  | '-' :: rest =>
    match digitsToNat? rest with
    | some n => some (-(n : ℤ))
    | Option.none => Option.none
  | l =>
    match digitsToNat? l with
    | some n => some ((n : ℤ))
    | Option.none => Option.none

/-- Split a character list on a separator character. -/
def splitOnChar (c : Char) : List Char → List (List Char)
  | [] => [[]]
  | x :: xs =>
    match splitOnChar c xs with
    | acc :: rest => if x = c then [] :: acc :: rest else (x :: acc) :: rest
    | [] => [[]]

/-- Models `dateutil.parser.parse`, restricted to `YYYY-MM-DD` calendar
strings with a year from 1970 on; every other string is treated as
unparseable (raises in Python, `Option.none` here).  A successful parse is
the midnight instant of that date, in epoch seconds. -/
def parseDateStr (s : String) : Option ℚ :=
  match splitOnChar '-' s.data with
  | [ys, ms, ds] =>
    match digitsToNat? ys, digitsToNat? ms, digitsToNat? ds with
    | some y, some m, some d =>
      if ys.length = 4 ∧ 1970 ≤ y ∧ 1 ≤ m ∧ m ≤ 12 ∧ 1 ≤ d ∧ d ≤ daysInMonth y m then
        some ((daysSinceEpoch y m d : ℚ) * 86400)
      else Option.none
    | _, _, _ => Option.none
  | _ => Option.none

/-- One Wagner-Fischer row step for the weighted Levenshtein distance
(insertion/deletion cost 1, substitution cost 2).  `prevTail` walks the
previous row aligned with `ys`; `diag` and `left` are the entries above-left
and left of the cell being produced. -/
def levRow (x : Char) : List Char → List ℕ → ℕ → ℕ → List ℕ
  | [], _, _, _ => []
  | _ :: _, [], _, _ => []
  | y :: ys, p :: ps, diag, left =>
    let c := min (p + 1) (min (left + 1) (diag + (if x = y then 0 else 2)))
    c :: levRow x ys ps p c

/-- Weighted Levenshtein distance (substitutions cost 2), the distance
underlying the `ratio` of python-Levenshtein. -/
def lev2 (xs ys : List Char) : ℕ :=
  let row0 := List.range (ys.length + 1)
  let lastRow := xs.foldl
    (fun row x =>
      let h := row.headD 0
      let first := h + 1
      first :: levRow x ys (row.tailD []) h first)
    row0
  lastRow.getLastD 0

/-- Models the external `fuzzywuzzy.fuzz.ratio`: the similarity in `[0,100]`
of the python-Levenshtein backend, `round(100 * (len1+len2-dist)/(len1+len2))`
(two identical strings score 100, the only property the theorems rely on). -/
def fuzz_ratio (s1 s2 : String) : ℤ :=
  let n := s1.length + s2.length
  if n = 0 then 100
  else rhe (100 * (((n : ℚ) - lev2 s1.data s2.data) / n))

/-- `scorer.fuzzy_match(text1, text2, threshold)`: falsy inputs never match;
otherwise compare `fuzz.ratio` of the lowercased `str()` forms against the
threshold (default 70 at every call site). -/
def fuzzy_match (t1 t2 : PyVal) (threshold : ℚ) : Bool :=
  if !pyTruthy t1 || !pyTruthy t2 then false
  else decide (threshold ≤ (fuzz_ratio (pyLower (pyStr t1)) (pyLower (pyStr t2)) : ℚ))

/-- `scorer.best_fuzzy_match(query, d, threshold)`: scan the dict keys,
keep the first key attaining the strictly-largest similarity, and accept it
only if that similarity meets the threshold. -/
def best_fuzzy_match (query : String) (d : List (String × PyVal)) (threshold : ℚ) : Option String :=
  let best := d.foldl
    (fun (best : ℤ × Option String) kv =>
      let sc := fuzz_ratio (pyLower query) (pyLower kv.1)
      if best.1 < sc then (sc, some kv.1) else best)
    (0, Option.none)
  if threshold ≤ (best.1 : ℚ) then best.2 else Option.none

/-- `scorer.cefr_scale`: the CEFR dict literal, **including the mixed-case
key `"Native"`** (the comment in the code reads "Assuming native is equivalent to
C2 for scoring"). -/
def cefr_scale : List (String × ℕ) :=
  [("A1", 1), ("A2", 2), ("B1", 3), ("B2", 4), ("C1", 5), ("C2", 6), ("Native", 6)]

/-- `cefr_scale.get(str(level).strip().upper(), 0)` — the lookup both
`cefr_to_numerical` and `calculate_language_coverage` perform.  Note the
query is uppercased, so the mixed-case key `"Native"` can never be hit. -/
def cefrNum (level : PyVal) : ℕ :=
  (lookupStr cefr_scale (pyUpper (pyStrip (pyStr level)))).getD 0

/-- The matched (project-level, employee-level) pairs collected by the first
loop of `calculate_language_coverage`. -/
def langMatchedPairs (pl el : List (String × PyVal)) : List (PyVal × PyVal) :=
  pl.filterMap (fun kv =>
    match best_fuzzy_match kv.1 el 70 with
    | some mk => (lookupStr el mk).map (fun elev => (kv.2, elev))
    | Option.none => Option.none)

/-- The per-pair proficiency fit of `calculate_language_coverage`:
1.0 when the employee level reaches the required level, otherwise
`max(0, 1 - (required - actual)/6)` (guarded on `required > 0`). -/
def langLevelFit (plev elev : PyVal) : ℚ :=
  if cefrNum elev ≥ cefrNum plev then 1
  else if cefrNum plev > 0 then
    max 0 (1 - ((cefrNum plev : ℚ) - (cefrNum elev : ℚ)) / 6)
  else 0

/-- `scorer.calculate_language_coverage`.  `Except.error ()` models the
`AttributeError` a truthy non-dict argument raises (`.items()` / `.keys()`);
the detail string is not modelled. -/
def calculate_language_coverage (pl el : PyVal) : Except Unit ℚ :=
  if !pyTruthy pl then .ok 1
  else if !pyTruthy el then .ok 0
  else
    match pl, el with
    | .dict pld, .dict eld =>
      let matched := langMatchedPairs pld eld
      if matched.isEmpty then .ok 0
      else
        let coverage : ℚ := (matched.length : ℚ) / (pld.length : ℚ)
        let fits := matched.map (fun p => langLevelFit p.1 p.2)
        let avgFit : ℚ := fits.sum / (fits.length : ℚ)
        .ok (pyRound (coverage * avgFit) 3)
    | _, _ => .error ()

/-- `scorer.language_score` simply delegates to the coverage calculation. -/
def language_score (pl el : PyVal) : Except Unit ℚ := calculate_language_coverage pl el

/-- `scorer.normalize_flexibility`: 0 remote, 1 hybrid, 2 on-site, 3 other,
by substring tests on the lowercased `str()` of the input. -/
def normalize_flexibility (v : PyVal) : ℕ :=
  let t := pyLower (pyStr v)
  if containsSubstr t "remote" then 0
  else if containsSubstr t "hybrid" then 1
  else if containsSubstr t "on-site" || containsSubstr t "onsite" then 2
  else 3

/-- `scorer.location_score`: the flexibility/location state machine.  Total —
no branch raises.  Detail strings are not modelled. -/
def location_score (ploc pflex eloc eflex : PyVal) : ℚ :=
  if normalize_flexibility pflex = 0 then 1
  else if normalize_flexibility pflex = 2 then
    if fuzzy_match ploc eloc 70 then
      if normalize_flexibility eflex = 2 then 1
      else if normalize_flexibility eflex = 1 then 1/2
      else 0
    else 0
  else if normalize_flexibility pflex = 1 then
    if fuzzy_match ploc eloc 70 then
      if normalize_flexibility eflex = 1 then 1
      else if normalize_flexibility eflex = 0 then 0
      else if normalize_flexibility eflex = 2 then 1
      else 0
    else 0
  else 0

/-- Parsing of the project end input (`scorer.availability_score`, first
block).  A numeric input is **always** divided by 1000
(`datetime.fromtimestamp(x / 1000)`, i.e. treated as epoch milliseconds —
there is no seconds/milliseconds disambiguation here).  A missing or
unexpected-type input defaults to `now + 5 years`; an unparseable string
raises (caught by the outer `except` of the function, yielding score 0.0). -/
def parseProjEnd (now : ℚ) (endI : PyVal) : Except Unit ℚ :=
  match endI with
  | .none => .ok (now + 5 * 365 * 86400)
  | .num q => .ok (q / 1000)
  | .str s =>
    match parseDateStr s with
    | some t => .ok t
    | Option.none => .error ()
  | .list _ => .ok (now + 5 * 365 * 86400)
  | .dict _ => .ok (now + 5 * 365 * 86400)

/-- Parsing of the employee available-from input (second block).  Numeric
inputs are again treated as epoch milliseconds.  Missing input, an
unexpected type, and an unparseable string all end with score 0.0
(the first two via explicit `return 0.0`, the last via the outer `except`);
all three are folded into `.error ()` here. -/
def parseAvailDate (availI : PyVal) : Except Unit ℚ :=
  match availI with
  | .none => .error ()
  | .num q => .ok (q / 1000)
  | .str s =>
    match parseDateStr s with
    | some t => .ok t
    | Option.none => .error ()
  | .list _ => .error ()
  | .dict _ => .error ()

/-- `float(x if x is not None else 0)` wrapped in `try/except ValueError`:
`None` gives 0, a number passes through, a string parses or falls back to 0
(`ValueError` is caught), and a list/dict raises `TypeError`, which escapes
to the outer handler (`.error ()`). -/
def pyFloatOr0 (v : PyVal) : Except Unit ℚ :=
  match v with
  | .none => .ok 0
  | .num q => .ok q
  | .str s => .ok (((parseIntStr s).map (fun z => (z : ℚ))).getD 0)
  | .list _ => .error ()
  | .dict _ => .error ()

/-- The numeric core of `scorer.availability_score`, after both dates parsed
and both numbers coerced.  Checks capacity **before** effort; converts
effort hours to calendar days via `effort/capacity` weeks × 7 days; scores
1.0 on time, otherwise `max(0, 1 - days_over/30)`, rounded to 3 places.
`days_over` is `timedelta.days`, i.e. the floor of the day difference. -/
def avail_core (projEnd availDate cap eff : ℚ) : ℚ :=
  if cap ≤ 0 then 0
  else if eff ≤ 0 then 1
  else if availDate + eff / cap * 7 * 86400 ≤ projEnd then 1
  else
    pyRound
      (max 0 (1 - ((⌊(availDate + eff / cap * 7 * 86400 - projEnd) / 86400⌋ : ℤ) : ℚ) / 30)) 3

/-- `scorer.availability_score`.  `now` is the wall clock
(`datetime.now()`, rational epoch seconds), an explicit parameter of the
model; it enters only through the far-future default of `parseProjEnd`.
Total: every internal exception is caught and yields 0.0. -/
def availability_score (now : ℚ) (effI endI availI capI : PyVal) : ℚ :=
  match parseProjEnd now endI with
  | .error _ => 0
  | .ok projEnd =>
    match parseAvailDate availI with
    | .error _ => 0
    | .ok availDate =>
      match pyFloatOr0 capI, pyFloatOr0 effI with
      | .ok cap, .ok eff => avail_core projEnd availDate cap eff
      | _, _ => 0

/-- A bare string requirement/candidate is wrapped into a one-element list
(`if isinstance(x, str): x = [x]`). -/
def wrapStr (v : PyVal) : PyVal :=
  match v with
  | .str s => .list [.str s]
  | v => v

/-- Iterating a Python value with `for`: lists yield their elements, dicts
their keys (as strings); iterating a number raises `TypeError` (`None` never
reaches iteration in the scorers — truthiness guards fire first). -/
def pyIter (v : PyVal) : Except Unit (List PyVal) :=
  match v with
  | .list l => .ok l
  | .dict d => .ok (d.map (fun kv => PyVal.str kv.1))
  | _ => .error ()

/-- The shared body of `scorer.product_score`, `scorer.certification_score`
and `scorer.expertise_score` (three line-identical functions): empty
requirement 1.0; requirement with empty candidate 0.0; else the fraction of
required items with a fuzzy match (default threshold 70) among candidate
items, rounded to 3 places. -/
def list_overlap_score (req cand : PyVal) : Except Unit ℚ :=
  if !pyTruthy req then .ok 1
  else if !pyTruthy cand then .ok 0
  else do
    let reqL ← pyIter (wrapStr req)
    let candL ← pyIter (wrapStr cand)
    let nMatch := reqL.countP (fun p => candL.any (fun e => fuzzy_match p e 70))
    .ok (pyRound ((nMatch : ℚ) / (reqL.length : ℚ)) 3)

/-- `scorer.product_score`. -/
def product_score (pp ep : PyVal) : Except Unit ℚ := list_overlap_score pp ep

/-- `scorer.certification_score`. -/
def certification_score (pc ec : PyVal) : Except Unit ℚ := list_overlap_score pc ec

/-- `scorer.expertise_score`. -/
def expertise_score (pe ee : PyVal) : Except Unit ℚ := list_overlap_score pe ee

/-- `scorer.industry_score`: single-valued project industry, short-circuits
to 1.0 on the first fuzzy match.  The details f-string runs
`", ".join(employee_industries)` **before** the loop, which raises
`TypeError` when an element is not a string — modelled by the `all isStr`
guard. -/
def industry_score (projInd empInds : PyVal) : Except Unit ℚ :=
  if !pyTruthy projInd then .ok 1
  else if !pyTruthy empInds then .ok 0
  else do
    let l ← pyIter (wrapStr empInds)
    if l.all (fun e => match e with | .str _ => true | _ => false) then
      .ok (if l.any (fun e => fuzzy_match projInd e 70) then 1 else 0)
    else .error ()

/-- The matched skill pairs (required level, actual level) collected by the
loop of `skill_match_score_with_fuzzy_keys`: each required skill is
fuzzy-matched (threshold 70) against the employee competency keys; matched
pairs carry the two levels. -/
def skillMatchedPairs (ps comp : List (String × PyVal)) : List (PyVal × PyVal) :=
  ps.filterMap (fun kv =>
    match best_fuzzy_match kv.1 comp 70 with
    | some mk => (lookupStr comp mk).map (fun actual => (kv.2, actual))
    | Option.none => Option.none)

/-- Per-matched-skill expertise fit: `1.0 if actual >= required else
1 - (required - actual)/10`.  The Python dynamic comparison: two numbers
compare numerically; two strings compare lexicographically but then raise
`TypeError` in the subtraction; mixed operands raise `TypeError` at the
comparison. -/
def skillLevelFit (required actual : PyVal) : Except Unit ℚ :=
  match required, actual with
  | .num r, .num a => .ok (if a ≥ r then 1 else 1 - (r - a) / 10)
  | .str r, .str a => if a ≥ r then .ok 1 else .error ()
  | _, _ => .error ()

/-- The complexity validation at the top of
`skill_match_score_with_fuzzy_keys`: default 5 when non-numeric, clamp to
`[0,10]`. -/
def complexityClamp (complexityI : PyVal) : ℚ :=
  max 0 (min 10 (match complexityI with | .num q => q | _ => 5))

/-- Coverage: matched-skill count over required-skill count. -/
def skillCoverage (psl compl : List (String × PyVal)) : ℚ :=
  ((skillMatchedPairs psl compl).length : ℚ) / (psl.length : ℚ)

/-- Average expertise fit over the matched pairs. -/
def skillExpertiseFit (fits : List ℚ) : ℚ := fits.sum / (fits.length : ℚ)

/-- The final-score step: 1.0 when capability reaches the complexity target,
otherwise `round(capability/target, 2)` — the division raises
`ZeroDivisionError` when the target is 0 (`.error ()`). -/
def skillFinal (cap target : ℚ) : Except Unit ℚ :=
  if cap ≥ target then .ok 1
  else if target = 0 then .error ()
  else .ok (pyRound (cap / target) 2)

/-- `scorer.skill_match_score_with_fuzzy_keys`.  A truthy non-dict skills or
competencies argument raises (`.items()` / `.keys()`), modelled as
`.error ()`.  With no matched pairs the score is 0.0 — **also for an empty
requirement** (the documented asymmetry). -/
def skill_match_score_with_fuzzy_keys (ps complexityI comp : PyVal) : Except Unit ℚ :=
  if pyTruthy ps && pyTruthy comp then
    match ps with
    | .dict psl =>
      match comp with
      | .dict compl =>
        if (skillMatchedPairs psl compl).isEmpty then .ok 0
        else do
          let fits ← (skillMatchedPairs psl compl).mapM (fun p => skillLevelFit p.1 p.2)
          skillFinal (skillCoverage psl compl * skillExpertiseFit fits)
            (complexityClamp complexityI / 10)
      | _ => .error ()
    | _ => .error ()
  else .ok 0

/-- Lines 552-559 of `scorer.score_employee_against_project`: fetch
`Complexity`, convert a string with `int()` (default 5 on failure or
unsuitable type), truncate a float toward zero, clamp to [0,10]. -/
def complexityOf (proj : Record) : ℚ :=
  let raw := rget proj "Complexity"
  let v : ℤ := match raw with
    | .num q => q.floor + (if q < 0 ∧ q.den ≠ 1 then 1 else 0)
    | .str s => (parseIntStr s).getD 5
    | _ => 5
  ((max 0 (min 10 v) : ℤ) : ℚ)

/-- Models the external `json.loads`, conservatively: no document decodes.
No theorem below depends on this stub: the input-domain hypotheses of the
range theorems require list/mapping fields to arrive as already-decoded
structures (never as strings), so `safeGetParse` returns them unchanged and
this branch is never consulted, and the C4 abort path reads the raw fields
without any decoding.  On records admitted by those hypotheses the model
therefore coincides with the program. -/
def jsonParse (_ : String) : Option PyVal := Option.none

/-- `scorer._safely_get_and_parse_json_field` as called in the pipeline —
every call site passes an explicit default, so the default-computation block
at its top is never active.  A string field that looks like a JSON list or
dict is decoded; on decode failure it becomes a one-element list when the
default is a list, else stays a string.  A present-but-`None` field falls
back to the default. -/
def safeGetParse (r : Record) (field : String) (dflt : PyVal) : PyVal :=
  let val := rgetD r field dflt
  match val with
  | .str s =>
    let chars := s.data
    let looksJson :=
      (isPrefixChars ['['] chars && isPrefixChars [']'] chars.reverse) ||
      (isPrefixChars ['\x7b'] chars && isPrefixChars ['\x7d'] chars.reverse)
    if looksJson then
      match jsonParse s with
      | some v => v
      | Option.none =>
        match dflt with
        | .list _ => .list [.str s]
        | _ => .str s
    else .str s
  | .none => dflt
  | v => v

/-- `normalize(value, 0, 10)` applied to a trait rating from the record:
numbers clamp to `[0,1]` after division by 10; any other present value
raises `TypeError` in `value - min_val`. -/
def normalizeTrait (v : PyVal) : Except Unit ℚ :=
  match v with
  | .num q => .ok (max 0 (min 1 (q / 10)))
  | _ => .error ()

/-- The retriever pass-through (`employee_record.get("document_score", 0.0)`)
— stored raw, unclamped.  The detail f-string `f"{x:.3f}"` raises for a
non-numeric present value. -/
def retrieverScoreOf (emp : Record) : Except Unit ℚ :=
  match rgetD emp "document_score" (.num 0) with
  | .num q => .ok q
  | _ => .error ()

/-- The aggregation loop of `score_employee_against_project`: iterate the
weight table; a factor present in the computed scores with a numeric value
contributes `score × weight` and its weight; anything else is skipped.  If
the total applied weight is positive the sum is renormalized and rounded to
4 places, else the overall score is 0. -/
def aggregate (weights : List (String × ℚ)) (scores : List (String × PyVal)) : ℚ :=
  let p := weights.foldl
    (fun (acc : ℚ × ℚ) nw =>
      match lookupStr scores nw.1 with
      | some (.num q) => (acc.1 + q * nw.2, acc.2 + nw.2)
      | _ => acc)
    (0, 0)
  if 0 < p.2 then pyRound (p.1 / p.2) 4 else 0

/-- The weight-table entries applicable to a score mapping: present and
numeric (the spec wording "present in both ... and whose value is numeric"). -/
def applicableWeights (weights : List (String × ℚ)) (scores : List (String × PyVal)) :
    List (String × ℚ) :=
  weights.filter (fun nw =>
    match lookupStr scores nw.1 with
    | some (.num _) => true
    | _ => false)

/-- The numeric score stored under a factor name (0 when absent/non-numeric;
only evaluated at applicable names). -/
def scoreOf (scores : List (String × PyVal)) (name : String) : ℚ :=
  match lookupStr scores name with
  | some (.num q) => q
  | _ => 0

/-- `Σ (score_i × weight_i)` over the applicable factor names. -/
def aggNumer (weights : List (String × ℚ)) (scores : List (String × PyVal)) : ℚ :=
  ((applicableWeights weights scores).map (fun nw => scoreOf scores nw.1 * nw.2)).sum

/-- `Σ weight_i` over the applicable factor names. -/
def aggDenom (weights : List (String × ℚ)) (scores : List (String × PyVal)) : ℚ :=
  ((applicableWeights weights scores).map Prod.snd).sum

/-- `config.SCORING_WEIGHTS`. -/
def SCORING_WEIGHTS : List (String × ℚ) :=
  [("SkillMatchScore", 0.25), ("AvailabilityScore", 0.15), ("ProductScore", 0.05),
   ("IndustryScore", 0.05), ("ExpertiseScore", 0.10), ("LanguageScore", 0.05),
   ("CertificationScore", 0.05), ("LocationScore", 0.00), ("CulturalAwarenessScore", 0.02),
   ("ProblemSolvingScore", 0.04), ("LeadershipScore", 0.04), ("RetrieverScore", 0.25)]

/-- The numeric contents of a `CandidateScoreReport`: the `Scores` mapping in
insertion order and the aggregated overall score.  Detail strings and the
two id fields are not modelled. -/
structure Report where
  scores : List (String × ℚ)
  overall : ℚ
deriving DecidableEq, Repr

/-- Decidable equality for `Except` results (not provided by core). -/
instance {e a : Type} [DecidableEq e] [DecidableEq a] : DecidableEq (Except e a) := fun x y =>
  match x, y with
  | .error u, .error v =>
    if h : u = v then isTrue (by rw [h]) else isFalse (fun hc => h (Except.error.inj hc))
  | .error _, .ok _ => isFalse (fun hc => Except.noConfusion hc)
  | .ok _, .error _ => isFalse (fun hc => Except.noConfusion hc)
  | .ok u, .ok v =>
    if h : u = v then isTrue (by rw [h]) else isFalse (fun hc => h (Except.ok.inj hc))

/-- `scorer.score_employee_against_project` (numeric contents).  `now` is
the wall clock, reaching only the availability scorer.  `weights` is the
active weight table (`custom_weights` or `SCORING_WEIGHTS`).  An uncaught
exception in any factor scorer aborts the whole computation (`.error ()`),
exactly as in Python.  Note: the skill factor reads the **raw**
`Required Skills and Expertise` / `Core Competencies` fields
(`record.get(..., {})`), not the defensively decoded `proj_skills` /
`emp_competencies` computed two lines earlier. -/
def projEndValOf (proj : Record) : PyVal :=
  match rget proj "Requested End Date" with
  | .none => rget proj "Requested End"
  | v => v

def score_employee_against_project (now : ℚ) (emp proj : Record)
    (weights : List (String × ℚ)) : Except Unit Report := do
  let avail := availability_score now (rget proj "Effort") (projEndValOf proj)
    (rget emp "Available From") (rget emp "Weekly Availability in Hours")
  let prodS ← product_score (safeGetParse proj "Products Involved" (.list []))
    (safeGetParse emp "Products Experience" (.list []))
  let locS := location_score (rget proj "Work Location") (rget proj "Work Flexibility")
    (rget emp "Work Location") (rget emp "Work Flexibility")
  let langS ← language_score (safeGetParse proj "Languages Required" (.dict []))
    (safeGetParse emp "Languages Known" (.dict []))
  let indS ← industry_score (rget proj "Customer Industry")
    (safeGetParse emp "Industry Experience" (.list []))
  let skillS ← skill_match_score_with_fuzzy_keys
    (rgetD proj "Required Skills and Expertise" (.dict []))
    (.num (complexityOf proj))
    (rgetD emp "Core Competencies" (.dict []))
  let certS ← certification_score
    (safeGetParse proj "Customer Preferences (Certifications)" (.list []))
    (safeGetParse emp "External/Internal Certifications" (.list []))
  let retrS ← retrieverScoreOf emp
  let expS ← expertise_score
    (safeGetParse proj "Integration Requirements (Expertise Areas)" (.list []))
    (safeGetParse emp "Expertise Areas" (.list []))
  let cultS ← normalizeTrait (rgetD emp "Cultural Awareness" (.num 0))
  let probS ← normalizeTrait (rgetD emp "Problem Solving" (.num 0))
  let leadS ← normalizeTrait (rgetD emp "Leadership" (.num 0))
  let scores : List (String × ℚ) :=
    [("AvailabilityScore", avail),
     ("IsFullyAvailable", if avail = 1 then 1 else 0),
     ("ProductScore", prodS),
     ("LocationScore", locS),
     ("LanguageScore", langS),
     ("IndustryScore", indS),
     ("SkillMatchScore", skillS),
     ("CertificationScore", certS),
     ("RetrieverScore", retrS),
     ("ExpertiseScore", expS),
     ("CulturalAwarenessScore", cultS),
     ("ProblemSolvingScore", probS),
     ("LeadershipScore", leadS)]
  .ok ⟨scores, aggregate weights (scores.map (fun p => (p.1, PyVal.num p.2)))⟩

/-- Does the score mapping hold a numeric value under this name?  (The
`isinstance(..., (int, float))` test of the aggregation loop.) -/
def isNumAt (scores : List (String × PyVal)) (name : String) : Bool :=
  match lookupStr scores name with
  | some (.num _) => true
  | _ => false

/-- A value the overlap scorers can iterate without raising: anything except
a truthy number (truthy lists/dicts/strings iterate or are wrapped; falsy
values are screened out before iteration). -/
def iterFieldOK : PyVal → Bool
  | .num q => decide (q = 0)
  | _ => true

/-- An employee-industries value the industry scorer can `", ".join`:
as `iterFieldOK`, and list elements must be strings. -/
def strListFieldOK : PyVal → Bool
  | .num q => decide (q = 0)
  | .list l => l.all (fun e => match e with | .str _ => true | _ => false)
  | _ => true

/-- A language-mapping value: a dict, or anything falsy. -/
def dictFieldOK : PyVal → Bool
  | .dict _ => true
  | v => !pyTruthy v

/-- A raw (pre-decode) list-valued record field of the documented domain:
absent, or an already-decoded structure — **never a string** (an encoded
JSON string is outside this domain; C4 shows the program aborting on
encoded skills fields, and `json.loads` is modelled conservatively), and
not a truthy number. -/
def rawListFieldOK : PyVal → Bool
  | .num q => decide (q = 0)
  | .str _ => false
  | _ => true

/-- A raw employee-industries field: as `rawListFieldOK`, and list elements
must be strings (the industry scorer runs `", ".join` over them). -/
def rawStrListFieldOK : PyVal → Bool
  | .num q => decide (q = 0)
  | .str _ => false
  | .list l => l.all (fun e => match e with | .str _ => true | _ => false)
  | _ => true

/-- A raw language-mapping field: an already-decoded dict, or absent/falsy —
never a string. -/
def rawDictFieldOK : PyVal → Bool
  | .dict _ => true
  | .str _ => false
  | v => !pyTruthy v

/-- A skill/competency level in the documented 0-10 numeric range. -/
def levelOK : PyVal → Bool
  | .num q => decide (0 ≤ q) && decide (q ≤ 10)
  | _ => false

/-- A skill/competency mapping: a dict whose values are 0-10 numbers, or
anything falsy. -/
def skillsFieldOK : PyVal → Bool
  | .dict d => d.all (fun kv => levelOK kv.2)
  | v => !pyTruthy v

/-- A record field that is absent or numeric (trait ratings, document_score). -/
def numFieldOK (r : Record) (f : String) : Bool :=
  match lookupStr r f with
  | Option.none => true
  | some (.num _) => true
  | some _ => false

/-- The employee-record side of the documented input domain of §3 of the
spec: list/mapping fields arrive **already decoded** (absent or structures
of the right shape, never encoded strings), skill levels are 0-10 numbers,
trait ratings and the relevance value are numeric.  On this domain
`safeGetParse` returns each field unchanged (the `json.loads` branch is
never consulted), so the model agrees with the program record-for-record,
and every factor scorer returns a score with every clamped factor in
`[0,1]`. -/
def employeeDomainOK (emp : Record) : Bool :=
  rawListFieldOK (rgetD emp "Products Experience" (.list [])) &&
  rawDictFieldOK (rgetD emp "Languages Known" (.dict [])) &&
  rawStrListFieldOK (rgetD emp "Industry Experience" (.list [])) &&
  skillsFieldOK (rgetD emp "Core Competencies" (.dict [])) &&
  rawListFieldOK (rgetD emp "External/Internal Certifications" (.list [])) &&
  numFieldOK emp "document_score" &&
  rawListFieldOK (rgetD emp "Expertise Areas" (.list [])) &&
  numFieldOK emp "Cultural Awareness" &&
  numFieldOK emp "Problem Solving" &&
  numFieldOK emp "Leadership"

/-- The project-record side of the documented input domain (same
conventions as `employeeDomainOK`). -/
def projectDomainOK (proj : Record) : Bool :=
  rawListFieldOK (rgetD proj "Products Involved" (.list [])) &&
  rawDictFieldOK (rgetD proj "Languages Required" (.dict [])) &&
  skillsFieldOK (rgetD proj "Required Skills and Expertise" (.dict [])) &&
  rawListFieldOK (rgetD proj "Customer Preferences (Certifications)" (.list [])) &&
  rawListFieldOK (rgetD proj "Integration Requirements (Expertise Areas)" (.list []))

/-- Models the numeric branch of `config.format_timestamp_to_date`
(lines 78-82): a number above the year-2000-in-milliseconds threshold
(946684800000) is epoch milliseconds and is divided by 1000, otherwise it is
epoch seconds; the function then formats the calendar date
(`strftime` with format `%Y-%m-%d`), represented here by the UTC epoch day. -/
def format_timestamp_to_date_num (q : ℚ) : ℤ :=
  epochDay (if q > 946684800000 then q / 1000 else q)

/-! ## Theorems -/

theorem rhe_mem (x : ℚ) : rhe x = ⌊x⌋ ∨ rhe x = ⌊x⌋ + 1 := by
  unfold rhe
  split
  · exact Or.inl rfl
  · split
    · exact Or.inr rfl
    · split
      · exact Or.inl rfl
      · exact Or.inr rfl

theorem rhe_le (x : ℚ) (b : ℤ) (hb : x ≤ b) : rhe x ≤ b := by
  rcases rhe_mem x with h | h <;> rw [h]
  · exact Int.le_floor.mpr (le_trans (Int.floor_le x) hb)
  · -- the `+1` branches require the fractional part to be at least 1/2
    have hhalf : (1:ℚ)/2 ≤ x - ⌊x⌋ := by
      by_contra hc
      push_neg at hc
      unfold rhe at h
      rw [if_pos hc] at h
      omega
    · have hfx : (⌊x⌋ : ℚ) + 1/2 ≤ x := by linarith
      have hlt : (⌊x⌋ : ℚ) < b := by
        have : (⌊x⌋ : ℚ) + 1/2 ≤ (b : ℚ) := le_trans hfx hb
        linarith
      have : ⌊x⌋ < b := by exact_mod_cast hlt
      omega

theorem le_rhe (x : ℚ) (a : ℤ) (ha : (a : ℚ) ≤ x) : a ≤ rhe x := by
  rcases rhe_mem x with h | h <;> rw [h]
  · exact Int.le_floor.mpr ha
  · have := Int.le_floor.mpr ha
    omega

theorem pyRound_bounds (x : ℚ) (p : ℕ) (h0 : 0 ≤ x) (h1 : x ≤ 1) :
    0 ≤ pyRound x p ∧ pyRound x p ≤ 1 := by
  have hp : (0:ℚ) < 10 ^ p := by positivity
  have hlow : (0:ℤ) ≤ rhe (x * 10 ^ p) := by
    apply le_rhe
    push_cast
    positivity
  have hhigh : rhe (x * 10 ^ p) ≤ (10 ^ p : ℤ) := by
    apply rhe_le
    push_cast
    nlinarith
  constructor
  · unfold pyRound
    apply div_nonneg _ (le_of_lt hp)
    exact_mod_cast hlow
  · unfold pyRound
    rw [div_le_one hp]
    exact_mod_cast hhigh

theorem list_sum_le_length (l : List ℚ) (h : ∀ x ∈ l, x ≤ 1) : l.sum ≤ (l.length : ℚ) := by
  induction l with
  | nil => simp
  | cons a t ih =>
    simp only [List.sum_cons, List.length_cons]
    push_cast
    have ha : a ≤ 1 := h a (by simp)
    have ht : t.sum ≤ (t.length : ℚ) := ih (fun x hx => h x (by simp [hx]))
    linarith

/-- The average of a list of values in `[0,1]` is in `[0,1]` (with the
empty-list average `0/0 = 0` also in range). -/
theorem list_avg_unit (l : List ℚ) (h : ∀ x ∈ l, 0 ≤ x ∧ x ≤ 1) :
    0 ≤ l.sum / (l.length : ℚ) ∧ l.sum / (l.length : ℚ) ≤ 1 := by
  have hs : 0 ≤ l.sum := List.sum_nonneg (fun x hx => (h x hx).1)
  rcases l.eq_nil_or_concat with hnil | _
  · subst hnil; norm_num
  constructor
  · exact div_nonneg hs (by positivity)
  · rcases Nat.eq_zero_or_pos l.length with h0 | hpos
    · simp [h0]
    · rw [div_le_one (by exact_mod_cast hpos)]
      exact list_sum_le_length l (fun x hx => (h x hx).2)

/-- `m/n ∈ [0,1]` for naturals `m ≤ n` (again `0/0 = 0` included). -/
theorem nat_ratio_unit (m n : ℕ) (h : m ≤ n) :
    0 ≤ (m : ℚ) / (n : ℚ) ∧ (m : ℚ) / (n : ℚ) ≤ 1 := by
  constructor
  · positivity
  · rcases Nat.eq_zero_or_pos n with h0 | hpos
    · subst h0; simp
    · rw [div_le_one (by exact_mod_cast hpos)]
      exact_mod_cast h

theorem lookupStr_mem {α : Type} (l : List (String × α)) (k : String) (v : α)
    (h : lookupStr l k = some v) : (k, v) ∈ l := by
  induction l with
  | nil => simp [lookupStr] at h
  | cons a t ih =>
    obtain ⟨ak, av⟩ := a
    rw [lookupStr] at h
    by_cases hk : ak = k
    · rw [if_pos hk] at h
      subst hk
      rw [Option.some.injEq] at h
      subst h
      exact List.mem_cons_self _ _
    · rw [if_neg hk] at h
      exact List.mem_cons_of_mem _ (ih h)

theorem mapM_ok_of_forall {α : Type} (f : α → Except Unit ℚ) (l : List α)
    (h : ∀ x ∈ l, ∃ q, f x = .ok q ∧ 0 ≤ q ∧ q ≤ 1) :
    ∃ out, l.mapM f = .ok out ∧ out.length = l.length ∧ ∀ q ∈ out, 0 ≤ q ∧ q ≤ 1 := by
  induction l with
  | nil => exact ⟨[], rfl, rfl, by simp⟩
  | cons a t ih =>
    obtain ⟨q, hq, hq0, hq1⟩ := h a (by simp)
    obtain ⟨out, hout, hlen, hall⟩ := ih (fun x hx => h x (by simp [hx]))
    refine ⟨q :: out, ?_, by simp [hlen], ?_⟩
    · rw [List.mapM_cons, hq, hout]
      try rfl
    · intro x hx
      rcases List.mem_cons.mp hx with hx | hx
      · subst hx; exact ⟨hq0, hq1⟩
      · exact hall x hx

theorem applicableWeights_cons (w : String × ℚ) (ws : List (String × ℚ))
    (scores : List (String × PyVal)) :
    applicableWeights (w :: ws) scores =
      if isNumAt scores w.1 then w :: applicableWeights ws scores
      else applicableWeights ws scores := by
  simp only [applicableWeights, List.filter_cons, isNumAt]

/-- The aggregation fold computes the sum of applied `score×weight` products
and the sum of applied weights — refinement of the loop to the spec-level
`aggNumer`/`aggDenom`. -/
theorem aggregate_foldl (weights : List (String × ℚ)) (scores : List (String × PyVal))
    (s t : ℚ) :
    weights.foldl
      (fun (acc : ℚ × ℚ) nw =>
        match lookupStr scores nw.1 with
        | some (.num q) => (acc.1 + q * nw.2, acc.2 + nw.2)
        | _ => acc)
      (s, t)
    = (s + aggNumer weights scores, t + aggDenom weights scores) := by
  induction weights generalizing s t with
  | nil => simp [aggNumer, aggDenom, applicableWeights]
  | cons w ws ih =>
    rw [List.foldl_cons]
    have hskip : ∀ h : isNumAt scores w.1 = false,
        (s + aggNumer ws scores, t + aggDenom ws scores)
        = (s + aggNumer (w :: ws) scores, t + aggDenom (w :: ws) scores) := by
      intro h
      simp only [aggNumer, aggDenom, applicableWeights_cons, h, Bool.false_eq_true, if_false]
    rcases hl : lookupStr scores w.1 with _ | v
    · have hnum : isNumAt scores w.1 = false := by simp [isNumAt, hl]
      simp only [hl]
      rw [ih, hskip hnum]
    · cases v with
      | num q =>
        have hnum : isNumAt scores w.1 = true := by simp [isNumAt, hl]
        have hsc : scoreOf scores w.1 = q := by simp [scoreOf, hl]
        simp only [hl]
        rw [ih]
        simp only [aggNumer, aggDenom, applicableWeights_cons, hnum, if_true, List.map_cons,
          List.sum_cons, hsc, Prod.mk.injEq]
        exact ⟨by ring, by ring⟩
      | none =>
        have hnum : isNumAt scores w.1 = false := by simp [isNumAt, hl]
        simp only [hl]
        rw [ih, hskip hnum]
      | str s' =>
        have hnum : isNumAt scores w.1 = false := by simp [isNumAt, hl]
        simp only [hl]
        rw [ih, hskip hnum]
      | list l' =>
        have hnum : isNumAt scores w.1 = false := by simp [isNumAt, hl]
        simp only [hl]
        rw [ih, hskip hnum]
      | dict d' =>
        have hnum : isNumAt scores w.1 = false := by simp [isNumAt, hl]
        simp only [hl]
        rw [ih, hskip hnum]

/-- `aggregate` equals the spec-level renormalized weighted sum (rounded to
4 places), or 0 when the total applied weight is not positive. -/
theorem aggregate_eq_spec (weights : List (String × ℚ)) (scores : List (String × PyVal)) :
    aggregate weights scores =
      if 0 < aggDenom weights scores then
        pyRound (aggNumer weights scores / aggDenom weights scores) 4
      else 0 := by
  unfold aggregate
  rw [aggregate_foldl]
  norm_num

theorem avail_core_unit (a b c d : ℚ) : 0 ≤ avail_core a b c d ∧ avail_core a b c d ≤ 1 := by
  unfold avail_core
  split
  · norm_num
  split
  · norm_num
  split
  · norm_num
  rename_i hcap heff hlate
  apply pyRound_bounds
  · exact le_max_left 0 _
  · have hpos : (0:ℚ) < (b + d / c * 7 * 86400 - a) / 86400 := by
      rw [not_le] at hlate
      have : (0:ℚ) < b + d / c * 7 * 86400 - a := by linarith
      positivity
    have hfl : (0:ℤ) ≤ ⌊(b + d / c * 7 * 86400 - a) / 86400⌋ :=
      Int.floor_nonneg.mpr (le_of_lt hpos)
    have : (0:ℚ) ≤ (⌊(b + d / c * 7 * 86400 - a) / 86400⌋ : ℚ) := by exact_mod_cast hfl
    have h30 : (0:ℚ) ≤ (⌊(b + d / c * 7 * 86400 - a) / 86400⌋ : ℚ) / 30 := by positivity
    rw [max_le_iff]
    constructor
    · norm_num
    · linarith

theorem availability_score_unit (now : ℚ) (effI endI availI capI : PyVal) :
    0 ≤ availability_score now effI endI availI capI ∧
      availability_score now effI endI availI capI ≤ 1 := by
  unfold availability_score
  rcases parseProjEnd now endI with _ | pe
  · norm_num
  rcases parseAvailDate availI with _ | ad
  · norm_num
  rcases pyFloatOr0 capI with _ | cap
  · rcases pyFloatOr0 effI with _ | eff <;> norm_num
  rcases pyFloatOr0 effI with _ | eff
  · norm_num
  exact avail_core_unit pe ad cap eff

theorem pyIter_wrapStr_ok (v : PyVal) (h : iterFieldOK v = true) (ht : pyTruthy v = true) :
    ∃ l, pyIter (wrapStr v) = .ok l := by
  cases v with
  | none => simp [pyTruthy] at ht
  | num q =>
    simp only [iterFieldOK, decide_eq_true_eq] at h
    subst h
    simp [pyTruthy] at ht
  | str s => exact ⟨[.str s], rfl⟩
  | list l => exact ⟨l, rfl⟩
  | dict d => exact ⟨_, rfl⟩

theorem list_overlap_score_unit (req cand : PyVal)
    (h1 : iterFieldOK req = true) (h2 : iterFieldOK cand = true) :
    ∃ q, list_overlap_score req cand = .ok q ∧ 0 ≤ q ∧ q ≤ 1 := by
  unfold list_overlap_score
  by_cases ht1 : pyTruthy req
  · by_cases ht2 : pyTruthy cand
    · obtain ⟨l1, hl1⟩ := pyIter_wrapStr_ok req h1 ht1
      obtain ⟨l2, hl2⟩ := pyIter_wrapStr_ok cand h2 ht2
      simp only [ht1, ht2, Bool.not_true, Bool.false_eq_true, if_false, hl1, hl2,
        Except.bind, bind]
      refine ⟨_, rfl, ?_⟩
      have hcount := List.countP_le_length
        (l := l1) (p := fun p => l2.any (fun e => fuzzy_match p e 70))
      exact pyRound_bounds _ 3 (nat_ratio_unit _ _ hcount).1 (nat_ratio_unit _ _ hcount).2
    · simp only [ht2, Bool.not_false, if_true]
      exact ⟨0, by simp [ht1], by norm_num⟩
  · simp only [ht1, Bool.not_false, if_true]
    exact ⟨1, rfl, by norm_num⟩

theorem strList_all_str (ei : PyVal) (h : strListFieldOK ei = true) (ht : pyTruthy ei = true)
    (l : List PyVal) (hl : pyIter (wrapStr ei) = .ok l) :
    l.all (fun e => match e with | .str _ => true | _ => false) = true := by
  cases ei with
  | none => simp [pyTruthy] at ht
  | num q =>
    simp only [strListFieldOK, decide_eq_true_eq] at h
    subst h
    simp [pyTruthy] at ht
  | str s =>
    simp only [wrapStr, pyIter, Except.ok.injEq] at hl
    subst hl
    simp
  | list l' =>
    simp only [wrapStr, pyIter, Except.ok.injEq] at hl
    subst hl
    exact h
  | dict d =>
    simp only [wrapStr, pyIter, Except.ok.injEq] at hl
    subst hl
    simp only [List.all_eq_true, List.mem_map]
    intro x hx
    obtain ⟨kv, _, hx⟩ := hx
    subst hx
    rfl

theorem industry_score_unit (pi ei : PyVal) (h : strListFieldOK ei = true) :
    ∃ q, industry_score pi ei = .ok q ∧ 0 ≤ q ∧ q ≤ 1 := by
  unfold industry_score
  by_cases ht1 : pyTruthy pi
  · by_cases ht2 : pyTruthy ei
    · have hiter : iterFieldOK ei = true := by
        cases ei <;> simp_all [strListFieldOK, iterFieldOK]
      obtain ⟨l, hl⟩ := pyIter_wrapStr_ok ei hiter ht2
      have hall := strList_all_str ei h ht2 l hl
      simp only [ht1, ht2, Bool.not_true, Bool.false_eq_true, if_false, hl,
        Except.bind, bind, hall, if_true]
      refine ⟨_, rfl, ?_⟩
      split <;> norm_num
    · simp only [ht2, Bool.not_false, if_true]
      exact ⟨0, by simp [ht1], by norm_num⟩
  · simp only [ht1, Bool.not_false, if_true]
    exact ⟨1, rfl, by norm_num⟩

theorem langLevelFit_unit (p e : PyVal) : 0 ≤ langLevelFit p e ∧ langLevelFit p e ≤ 1 := by
  unfold langLevelFit
  split
  · norm_num
  split
  · rename_i hlt _
    rw [not_le] at hlt
    have hcast : (cefrNum e : ℚ) < (cefrNum p : ℚ) := by exact_mod_cast hlt
    constructor
    · exact le_max_left 0 _
    · rw [max_le_iff]
      constructor
      · norm_num
      · have : (0:ℚ) ≤ ((cefrNum p : ℚ) - (cefrNum e : ℚ)) / 6 := by linarith
        linarith
  · norm_num

theorem calculate_language_coverage_unit (pl el : PyVal)
    (h1 : dictFieldOK pl = true) (h2 : dictFieldOK el = true) :
    ∃ q, calculate_language_coverage pl el = .ok q ∧ 0 ≤ q ∧ q ≤ 1 := by
  unfold calculate_language_coverage
  by_cases ht1 : pyTruthy pl
  · by_cases ht2 : pyTruthy el
    · have hpl : ∃ pld, pl = .dict pld := by
        cases pl <;> simp_all [dictFieldOK]
      have hel : ∃ eld, el = .dict eld := by
        cases el <;> simp_all [dictFieldOK]
      obtain ⟨pld, hpl⟩ := hpl
      obtain ⟨eld, hel⟩ := hel
      subst hpl hel
      simp only [ht1, ht2, Bool.not_true, Bool.false_eq_true, if_false]
      by_cases hm : (langMatchedPairs pld eld).isEmpty
      · simp only [hm, if_true]
        exact ⟨0, rfl, by norm_num⟩
      · simp only [hm, Bool.false_eq_true, if_false]
        refine ⟨_, rfl, ?_⟩
        apply pyRound_bounds
        · have hcov := nat_ratio_unit (langMatchedPairs pld eld).length pld.length
            (List.length_filterMap_le _ _)
          have havg := list_avg_unit ((langMatchedPairs pld eld).map (fun p => langLevelFit p.1 p.2))
            (by
              intro x hx
              obtain ⟨p, _, hp⟩ := List.mem_map.mp hx
              subst hp
              exact langLevelFit_unit p.1 p.2)
          exact mul_nonneg hcov.1 havg.1
        · have hcov := nat_ratio_unit (langMatchedPairs pld eld).length pld.length
            (List.length_filterMap_le _ _)
          have havg := list_avg_unit ((langMatchedPairs pld eld).map (fun p => langLevelFit p.1 p.2))
            (by
              intro x hx
              obtain ⟨p, _, hp⟩ := List.mem_map.mp hx
              subst hp
              exact langLevelFit_unit p.1 p.2)
          exact mul_le_one₀ hcov.2 havg.1 havg.2
    · simp only [ht2, Bool.not_false, if_true]
      exact ⟨0, by simp [ht1], by norm_num⟩
  · simp only [ht1, Bool.not_false, if_true]
    exact ⟨1, rfl, by norm_num⟩

theorem skillLevelFit_ok_unit (r a : PyVal) (hr : levelOK r = true) (ha : levelOK a = true) :
    ∃ q, skillLevelFit r a = .ok q ∧ 0 ≤ q ∧ q ≤ 1 := by
  cases r with
  | num rq =>
    cases a with
    | num aq =>
      simp only [levelOK, Bool.and_eq_true, decide_eq_true_eq] at hr ha
      unfold skillLevelFit
      by_cases hge : aq ≥ rq
      · exact ⟨1, by simp [hge], by norm_num⟩
      · rw [not_le] at hge
        refine ⟨1 - (rq - aq) / 10, ?_, ?_, ?_⟩
        · dsimp only
          rw [if_neg (not_le.mpr hge)]
        · have h10 : rq - aq ≤ 10 := by linarith [hr.1, hr.2, ha.1, ha.2]
          have : (rq - aq) / 10 ≤ 1 := by linarith
          linarith
        · have h0 : 0 < rq - aq := by linarith
          have : 0 < (rq - aq) / 10 := by positivity
          linarith
    | none => simp [levelOK] at ha
    | str _ => simp [levelOK] at ha
    | list _ => simp [levelOK] at ha
    | dict _ => simp [levelOK] at ha
  | none => simp [levelOK] at hr
  | str _ => simp [levelOK] at hr
  | list _ => simp [levelOK] at hr
  | dict _ => simp [levelOK] at hr

theorem skillMatchedPairs_mem (psl compl : List (String × PyVal)) (p : PyVal × PyVal)
    (hp : p ∈ skillMatchedPairs psl compl)
    (h1 : psl.all (fun kv => levelOK kv.2) = true)
    (h2 : compl.all (fun kv => levelOK kv.2) = true) :
    levelOK p.1 = true ∧ levelOK p.2 = true := by
  unfold skillMatchedPairs at hp
  obtain ⟨kv, hkv, hmk⟩ := List.mem_filterMap.mp hp
  rcases hbm : best_fuzzy_match kv.1 compl 70 with _ | mk <;> rw [hbm] at hmk
  · simp at hmk
  · rcases hlk : lookupStr compl mk with _ | act
    · simp only [hlk] at hmk
      simp at hmk
    · simp only [hlk, Option.map_some', Option.some.injEq] at hmk
      subst hmk
      constructor
      · exact (List.all_eq_true.mp h1 kv hkv)
      · exact (List.all_eq_true.mp h2 (mk, act) (lookupStr_mem compl mk act hlk))

theorem complexityClamp_range (ci : PyVal) :
    0 ≤ complexityClamp ci ∧ complexityClamp ci ≤ 10 := by
  unfold complexityClamp
  constructor
  · exact le_max_left 0 _
  · rw [max_le_iff]
    rcases ci with _ | q | s | l | d
    all_goals constructor
    all_goals norm_num [min_le_left]

theorem skillFinal_unit (cap target : ℚ) (hcap : 0 ≤ cap) :
    ∃ q, skillFinal cap target = .ok q ∧ 0 ≤ q ∧ q ≤ 1 := by
  unfold skillFinal
  by_cases hge : cap ≥ target
  · exact ⟨1, by simp [hge], by norm_num⟩
  · rw [not_le] at hge
    have htpos : 0 < target := lt_of_le_of_lt hcap hge
    refine ⟨pyRound (cap / target) 2, ?_, ?_⟩
    · rw [if_neg (not_le.mpr hge), if_neg (ne_of_gt htpos)]
    · apply pyRound_bounds
      · exact div_nonneg hcap (le_of_lt htpos)
      · rw [div_le_one htpos]
        exact le_of_lt hge

theorem skill_match_unit (ps ci comp : PyVal)
    (h1 : skillsFieldOK ps = true) (h2 : skillsFieldOK comp = true) :
    ∃ q, skill_match_score_with_fuzzy_keys ps ci comp = .ok q ∧ 0 ≤ q ∧ q ≤ 1 := by
  unfold skill_match_score_with_fuzzy_keys
  by_cases hc : (pyTruthy ps && pyTruthy comp) = true
  · have hc2 := hc
    simp only [Bool.and_eq_true] at hc2
    obtain ⟨hts, htc⟩ := hc2
    have hps : ∃ psl, ps = .dict psl ∧ psl.all (fun kv => levelOK kv.2) = true := by
      cases ps with
      | dict d => exact ⟨d, rfl, h1⟩
      | none => simp [pyTruthy] at hts
      | num q => simp [skillsFieldOK, hts] at h1
      | str s => simp [skillsFieldOK, hts] at h1
      | list l => simp [skillsFieldOK, hts] at h1
    have hcm : ∃ compl, comp = .dict compl ∧ compl.all (fun kv => levelOK kv.2) = true := by
      cases comp with
      | dict d => exact ⟨d, rfl, h2⟩
      | none => simp [pyTruthy] at htc
      | num q => simp [skillsFieldOK, htc] at h2
      | str s => simp [skillsFieldOK, htc] at h2
      | list l => simp [skillsFieldOK, htc] at h2
    obtain ⟨psl, hpsl, hall1⟩ := hps
    obtain ⟨compl, hcompl, hall2⟩ := hcm
    subst hpsl hcompl
    simp only [hc, if_true]
    by_cases hm : (skillMatchedPairs psl compl).isEmpty
    · simp only [hm, if_true]
      exact ⟨0, rfl, by norm_num⟩
    · simp only [hm, Bool.false_eq_true, if_false]
      obtain ⟨fits, hfits, hlen, hunit⟩ := mapM_ok_of_forall _ (skillMatchedPairs psl compl)
        (fun p hp => by
          obtain ⟨hl1, hl2⟩ := skillMatchedPairs_mem psl compl p hp hall1 hall2
          exact skillLevelFit_ok_unit p.1 p.2 hl1 hl2)
      rw [hfits]
      simp only [Except.bind, bind]
      have hcov := nat_ratio_unit (skillMatchedPairs psl compl).length psl.length
        (List.length_filterMap_le _ _)
      have havg := list_avg_unit fits hunit
      have hcap : 0 ≤ skillCoverage psl compl * skillExpertiseFit fits := by
        unfold skillCoverage skillExpertiseFit
        exact mul_nonneg hcov.1 havg.1
      exact skillFinal_unit _ _ hcap
  · rw [Bool.not_eq_true] at hc
    rw [hc]
    exact ⟨0, by simp, by norm_num⟩

theorem location_score_unit (a b c d : PyVal) :
    0 ≤ location_score a b c d ∧ location_score a b c d ≤ 1 := by
  unfold location_score
  split_ifs <;> norm_num

theorem normalizeTrait_num_unit (q : ℚ) :
    ∃ x, normalizeTrait (.num q) = .ok x ∧ 0 ≤ x ∧ x ≤ 1 :=
  ⟨max 0 (min 1 (q / 10)), rfl, le_max_left _ _, by
    rw [max_le_iff]
    exact ⟨by norm_num, min_le_left _ _⟩⟩

theorem rgetD_num_of_numFieldOK (r : Record) (f : String) (d : ℚ)
    (h : numFieldOK r f = true) : ∃ q, rgetD r f (.num d) = .num q := by
  unfold numFieldOK at h
  unfold rgetD
  rcases hl : lookupStr r f with _ | v
  · exact ⟨d, by simp⟩
  · rw [hl] at h
    cases v with
    | num q => exact ⟨q, by simp⟩
    | none => simp at h
    | str _ => simp at h
    | list _ => simp at h
    | dict _ => simp at h

theorem normalizeTrait_field_unit (r : Record) (f : String) (h : numFieldOK r f = true) :
    ∃ x, normalizeTrait (rgetD r f (.num 0)) = .ok x ∧ 0 ≤ x ∧ x ≤ 1 := by
  obtain ⟨q, hq⟩ := rgetD_num_of_numFieldOK r f 0 h
  rw [hq]
  exact normalizeTrait_num_unit q

theorem retrieverScoreOf_ok (emp : Record) (h : numFieldOK emp "document_score" = true) :
    ∃ q, retrieverScoreOf emp = .ok q := by
  obtain ⟨q, hq⟩ := rgetD_num_of_numFieldOK emp "document_score" 0 h
  unfold retrieverScoreOf
  rw [hq]
  exact ⟨q, rfl⟩

/-- On a raw list-valued field of the documented domain, `safeGetParse`
returns the field unchanged (or the default when absent), and the result is
iterable: the `json.loads` branch is only reachable from a string field,
which `rawListFieldOK` excludes. -/
theorem safeGetParse_rawList (r : Record) (f : String)
    (h : rawListFieldOK (rgetD r f (.list [])) = true) :
    safeGetParse r f (.list []) =
      (match rgetD r f (.list []) with | PyVal.none => PyVal.list [] | v => v) ∧
    iterFieldOK (safeGetParse r f (.list [])) = true := by
  unfold safeGetParse
  rcases hv : rgetD r f (.list []) with _ | q | s | l | d <;> rw [hv] at h
  · exact ⟨rfl, rfl⟩
  · simp only [rawListFieldOK, decide_eq_true_eq] at h
    subst h
    exact ⟨rfl, rfl⟩
  · simp [rawListFieldOK] at h
  · exact ⟨rfl, rfl⟩
  · exact ⟨rfl, rfl⟩

/-- Raw employee-industries version of `safeGetParse_rawList`: the result
additionally satisfies the joinability condition of the industry scorer. -/
theorem safeGetParse_rawStrList (r : Record) (f : String)
    (h : rawStrListFieldOK (rgetD r f (.list [])) = true) :
    strListFieldOK (safeGetParse r f (.list [])) = true := by
  unfold safeGetParse
  rcases hv : rgetD r f (.list []) with _ | q | s | l | d <;> rw [hv] at h
  · rfl
  · simp only [rawStrListFieldOK, decide_eq_true_eq] at h
    subst h
    rfl
  · simp [rawStrListFieldOK] at h
  · exact h
  · rfl

/-- Raw language-mapping version of `safeGetParse_rawList`. -/
theorem safeGetParse_rawDict (r : Record) (f : String)
    (h : rawDictFieldOK (rgetD r f (.dict [])) = true) :
    dictFieldOK (safeGetParse r f (.dict [])) = true := by
  unfold safeGetParse
  rcases hv : rgetD r f (.dict []) with _ | q | s | l | d <;> rw [hv] at h
  · rfl
  · exact h
  · simp [rawDictFieldOK] at h
  · exact h
  · rfl

/-- C8: Score-range invariant — for every employee and project record in the
documented input domain, the pipeline returns a report in which every factor
score of the `Scores` mapping lies in `[0,1]`, with the single exception of
`RetrieverScore`, which passes the externally supplied relevance value
through unclamped. -/
theorem c8_score_range (now : ℚ) (emp proj : Record) (weights : List (String × ℚ))
    (hemp : employeeDomainOK emp = true) (hproj : projectDomainOK proj = true) :
    ∃ r, score_employee_against_project now emp proj weights = .ok r ∧
      ∀ p ∈ r.scores, p.1 ≠ "RetrieverScore" → 0 ≤ p.2 ∧ p.2 ≤ 1 := by
  simp only [employeeDomainOK, Bool.and_eq_true] at hemp
  simp only [projectDomainOK, Bool.and_eq_true] at hproj
  obtain ⟨⟨⟨⟨⟨⟨⟨⟨⟨he1, he2⟩, he3⟩, he4⟩, he5⟩, he6⟩, he7⟩, he8⟩, he9⟩, he10⟩ := hemp
  obtain ⟨⟨⟨⟨hp1, hp2⟩, hp3⟩, hp4⟩, hp5⟩ := hproj
  obtain ⟨q2, he_p, hb2⟩ := list_overlap_score_unit _ _
    (safeGetParse_rawList proj "Products Involved" hp1).2
    (safeGetParse_rawList emp "Products Experience" he1).2
  obtain ⟨q4, he_l, hb4⟩ := calculate_language_coverage_unit _ _
    (safeGetParse_rawDict proj "Languages Required" hp2)
    (safeGetParse_rawDict emp "Languages Known" he2)
  obtain ⟨q5, he_i, hb5⟩ := industry_score_unit (rget proj "Customer Industry") _
    (safeGetParse_rawStrList emp "Industry Experience" he3)
  obtain ⟨q6, he_s, hb6⟩ := skill_match_unit _ (.num (complexityOf proj)) _ hp3 he4
  obtain ⟨q7, he_c, hb7⟩ := list_overlap_score_unit _ _
    (safeGetParse_rawList proj "Customer Preferences (Certifications)" hp4).2
    (safeGetParse_rawList emp "External/Internal Certifications" he5).2
  obtain ⟨q8, he_r⟩ := retrieverScoreOf_ok emp he6
  obtain ⟨q9, he_e, hb9⟩ := list_overlap_score_unit _ _
    (safeGetParse_rawList proj "Integration Requirements (Expertise Areas)" hp5).2
    (safeGetParse_rawList emp "Expertise Areas" he7).2
  obtain ⟨qa, he_ca, hba⟩ := normalizeTrait_field_unit emp "Cultural Awareness" he8
  obtain ⟨qb, he_ps, hbb⟩ := normalizeTrait_field_unit emp "Problem Solving" he9
  obtain ⟨qc, he_le, hbc⟩ := normalizeTrait_field_unit emp "Leadership" he10
  simp only [score_employee_against_project, product_score, language_score, certification_score,
    expertise_score, he_p, he_l, he_i, he_s, he_c, he_r, he_e, he_ca, he_ps, he_le,
    Except.bind, bind]
  refine ⟨_, rfl, ?_⟩
  intro p hp hne
  simp only [List.mem_cons, List.not_mem_nil, or_false] at hp
  rcases hp with rfl | rfl | rfl | rfl | rfl | rfl | rfl | rfl | rfl | rfl | rfl | rfl | rfl
  · exact availability_score_unit now _ _ _ _
  · by_cases h : availability_score now (rget proj "Effort") (projEndValOf proj)
      (rget emp "Available From") (rget emp "Weekly Availability in Hours") = 1 <;>
      simp [h]
  · exact hb2
  · exact location_score_unit _ _ _ _
  · exact hb4
  · exact hb5
  · exact hb6
  · exact hb7
  · exact absurd rfl hne
  · exact hb9
  · exact hba
  · exact hbb
  · exact hbc

/-- Whenever the pipeline returns a report, its `OverallWeightedScore` is the
aggregation of its own `Scores` mapping under the active weight table. -/
theorem pipeline_overall (now : ℚ) (emp proj : Record) (weights : List (String × ℚ))
    (r : Report) (h : score_employee_against_project now emp proj weights = .ok r) :
    r.overall = aggregate weights (r.scores.map (fun p => (p.1, PyVal.num p.2))) := by
  unfold score_employee_against_project at h
  simp only [bind, Except.bind] at h
  repeat' split at h
  all_goals try simp only [reduceCtorEq] at h
  all_goals injection h with h
  all_goals subst h
  all_goals rfl

/-- C1 (counterexample): the exact equality claimed,
`OverallWeightedScore = Σ(score·weight)/Σ(weight)` fails, because the code
rounds the quotient to 4 decimal places.  With weights
`{AvailabilityScore: 2, RetrieverScore: 1}` and an employee whose only datum
is `document_score = 1` (so AvailabilityScore = 0, RetrieverScore = 1) the
renormalized sum is `(0·2 + 1·1)/(2+1) = 1/3`, but the pipeline emits
`round(1/3, 4) = 0.3333 ≠ 1/3`. -/
theorem c1_counterexample :
    (score_employee_against_project 0 [("document_score", PyVal.num 1)] []
        [("AvailabilityScore", 2), ("RetrieverScore", 1)]).map Report.overall
      = .ok (3333/10000) ∧
    ((0 : ℚ) * 2 + 1 * 1) / (2 + 1) = 1/3 ∧
    (3333/10000 : ℚ) ≠ 1/3 := by
  refine ⟨?_, ?_, ?_⟩
  · with_unfolding_all rfl
  · norm_num
  · exact of_decide_eq_true (by with_unfolding_all rfl)

/-- C1 (amended): the overall score is the renormalized weighted sum
**rounded to 4 decimal places** — `Σ(score_i × weight_i)/Σ(weight_i)` over
exactly the factor names present in both the weight table and the computed
scores with a numeric value — and 0.0 when the total applied weight is not
positive (`pipeline_overall` above ties the pipeline output to this
aggregation).  In the example of the claim (`{A: 0.5, B: 0.5}` against
`{A: 1.0}`) the result is exactly 1.0, renormalized over the applied weight
0.5 only. -/
theorem c1_aggregation_amended (weights : List (String × ℚ)) (scores : List (String × PyVal)) :
    (aggregate weights scores =
      if 0 < aggDenom weights scores then
        pyRound (aggNumer weights scores / aggDenom weights scores) 4
      else 0) ∧
    aggregate [("A", 1/2), ("B", 1/2)] [("A", PyVal.num 1)] = 1 := by
  refine ⟨aggregate_eq_spec weights scores, ?_⟩
  with_unfolding_all rfl

/-- C2 (counterexample): the claim says zero effort yields 1.0 regardless of
capacity — but the capacity-zero check runs **first**: with effort 0, valid
dates and weekly capacity 0 the score is 0.0, not 1.0. -/
theorem c2_counterexample :
    availability_score 0 (.num 0) (.str "2025-01-01") (.str "2024-01-01") (.num 0) = 0 ∧
    (0 : ℚ) ≠ 1 := by
  constructor
  · with_unfolding_all rfl
  · norm_num

/-- C2 (amended): zero-or-missing required effort yields score 1.0 provided
the weekly capacity is a positive number, the employee availability date is
present and parseable, and the project end input does not raise while
parsing (the capacity-zero rule takes precedence over the zero-effort rule,
and a missing or unparseable employee date, or an unparseable project end
string, yields 0.0 first). -/
theorem c2_zero_effort_amended (now : ℚ) (effI endI availI capI : PyVal) (c t u : ℚ)
    (heff : effI = PyVal.none ∨ effI = PyVal.num 0)
    (hcap : capI = PyVal.num c) (hcpos : 0 < c)
    (havail : parseAvailDate availI = .ok t)
    (hend : parseProjEnd now endI = .ok u) :
    availability_score now effI endI availI capI = 1 := by
  unfold availability_score
  rw [hend, havail, hcap]
  rcases heff with rfl | rfl <;>
  · simp only [pyFloatOr0]
    unfold avail_core
    rw [if_neg (not_le.mpr hcpos), if_pos (le_refl (0:ℚ))]

/-- C2 (witness): effort 0, no project end date, a parseable employee date
and capacity 40 give score 1.0. -/
theorem c2_witness :
    availability_score 0 (PyVal.num 0) PyVal.none (.str "2024-01-01") (PyVal.num 40) = 1 :=
  c2_zero_effort_amended 0 (PyVal.num 0) PyVal.none (.str "2024-01-01") (PyVal.num 40)
    40 ((daysSinceEpoch 2024 1 1 : ℚ) * 86400) (0 + 5 * 365 * 86400)
    (Or.inr rfl) rfl (by norm_num) (by with_unfolding_all rfl) rfl

/-- C3 (counterexample): `availability_score` does **not** disambiguate
epoch seconds from milliseconds — it always divides numeric date inputs by
1000.  The epoch-seconds form of 2024-12-31 (1735603200) is parsed as
1970-01-21 (epoch day 20, not 20088), so the same date given as a calendar
string scores 1.0 while its epoch-seconds form scores 0.0. -/
theorem c3_counterexample :
    availability_score 0 (.num 40) (.str "2024-12-31") (.str "2024-12-01") (.num 40) = 1 ∧
    availability_score 0 (.num 40) (.num 1735603200) (.str "2024-12-01") (.num 40) = 0 ∧
    parseDateStr "2024-12-31" = some 1735603200 ∧
    parseProjEnd 0 (.num 1735603200) = .ok (1735603200 / 1000) ∧
    epochDay (1735603200 / 1000) = 20 ∧ epochDay 1735603200 = 20088 := by
  refine ⟨?_, ?_, ?_, ?_, ?_, ?_⟩ <;> with_unfolding_all rfl

/-- C3 (amended): only `config.format_timestamp_to_date` disambiguates
numeric epochs by magnitude against the year-2000-in-milliseconds threshold
(946684800000); `availability_score` always interprets numeric date inputs
as epoch milliseconds, dividing by 1000. -/
theorem c3_epoch_amended (now q : ℚ) :
    parseProjEnd now (.num q) = .ok (q / 1000) ∧
    parseAvailDate (.num q) = .ok (q / 1000) ∧
    (q ≤ 946684800000 → format_timestamp_to_date_num q = epochDay q) ∧
    (946684800000 < q → format_timestamp_to_date_num q = epochDay (q / 1000)) := by
  refine ⟨rfl, rfl, ?_, ?_⟩
  · intro h
    unfold format_timestamp_to_date_num
    rw [if_neg (not_lt.mpr h)]
  · intro h
    unfold format_timestamp_to_date_num
    rw [if_pos h]

/-- C3 (witness): the epoch-seconds form of 2024-12-31 is below the
threshold, so the display helper maps it to its own calendar day, while
`availability_score` divides it by 1000. -/
theorem c3_witness :
    format_timestamp_to_date_num 1735603200 = epochDay 1735603200 ∧
    parseProjEnd 0 (.num 1735603200) = .ok (1735603200 / 1000) :=
  ⟨((c3_epoch_amended 0 1735603200).2.2.1 (by norm_num)), (c3_epoch_amended 0 1735603200).1⟩

/-- C4: scoring **aborts** when the skills fields arrive as encoded JSON
strings.  Lines 548-549 of `scorer.py` decode
`Required Skills and Expertise` / `Core Competencies` defensively into
`proj_skills` / `emp_competencies`, but lines 561-565 pass the **raw**
fields to `skill_match_score_with_fuzzy_keys`, whose `.items()` call raises
`AttributeError` on a string — contradicting both the spec and the decoding
intent visible in the code, so the claim is right and the code is wrong. -/
theorem c4_encoded_skills_field_aborts :
    score_employee_against_project 0
      [("Core Competencies", PyVal.str "\x7b\"Python\": 5\x7d")]
      [("Required Skills and Expertise", PyVal.str "\x7b\"Python\": 5\x7d")]
      SCORING_WEIGHTS = .error () := by
  with_unfolding_all rfl

/-- C5: the skill-scorer empty-requirement asymmetry — an empty (or
`None`) project skill-requirement mapping yields factor score exactly 0.0
for **every** candidate competency mapping and every complexity input; the
"empty requirement ⇒ 1.0" convention of the other scorers does not apply. -/
theorem c5_skill_empty_requirement (complexityI comp : PyVal) :
    skill_match_score_with_fuzzy_keys (.dict []) complexityI comp = .ok 0 ∧
    skill_match_score_with_fuzzy_keys PyVal.none complexityI comp = .ok 0 := by
  constructor <;> rfl

/-- C6: with project complexity 0 (complexity target 0), at least one
fuzzy-matched skill, and required and actual levels in the 0-10 range, the
skill score is 1.0 through the `capability ≥ target` branch — the
`capability / complexity_target` division of the else branch is never
executed, so no `ZeroDivisionError` can propagate. -/
theorem c6_complexity_zero_guard (psl compl : List (String × PyVal))
    (h1 : psl.all (fun kv => levelOK kv.2) = true)
    (h2 : compl.all (fun kv => levelOK kv.2) = true)
    (hm : (skillMatchedPairs psl compl).isEmpty = false) :
    skill_match_score_with_fuzzy_keys (.dict psl) (.num 0) (.dict compl) = .ok 1 := by
  obtain _ | ⟨p0, ps⟩ := psl
  · simp [skillMatchedPairs] at hm
  obtain _ | ⟨c0, cs⟩ := compl
  · have hnil : skillMatchedPairs (p0 :: ps) [] = [] := by
      unfold skillMatchedPairs
      rw [List.filterMap_eq_nil_iff]
      intro kv _
      have hbm : best_fuzzy_match kv.1 [] 70 = Option.none := by
        unfold best_fuzzy_match
        simp only [List.foldl_nil]
        exact ite_self _
      rw [hbm]
    rw [hnil] at hm
    simp at hm
  unfold skill_match_score_with_fuzzy_keys
  rw [if_pos (show (pyTruthy (.dict (p0 :: ps)) && pyTruthy (.dict (c0 :: cs))) = true from rfl)]
  simp only [hm, Bool.false_eq_true, if_false]
  obtain ⟨fits, hfits, hlen, hunit⟩ := mapM_ok_of_forall _ (skillMatchedPairs (p0 :: ps) (c0 :: cs))
    (fun p hp => by
      obtain ⟨hl1, hl2⟩ := skillMatchedPairs_mem (p0 :: ps) (c0 :: cs) p hp h1 h2
      exact skillLevelFit_ok_unit p.1 p.2 hl1 hl2)
  rw [hfits]
  simp only [Except.bind, bind]
  have htar : complexityClamp (PyVal.num 0) / 10 = 0 := by
    unfold complexityClamp
    norm_num
  rw [htar]
  have hcov := nat_ratio_unit (skillMatchedPairs (p0 :: ps) (c0 :: cs)).length (p0 :: ps).length
    (List.length_filterMap_le _ _)
  have havg := list_avg_unit fits hunit
  have hcap : (0:ℚ) ≤ skillCoverage (p0 :: ps) (c0 :: cs) * skillExpertiseFit fits := by
    unfold skillCoverage skillExpertiseFit
    exact mul_nonneg hcov.1 havg.1
  unfold skillFinal
  rw [if_pos hcap]

/-- C6 (witness): identical skill keys match (similarity 100 ≥ 70), so the
pairs are non-empty; with complexity 0 the score is 1.0. -/
theorem c6_witness :
    skill_match_score_with_fuzzy_keys (.dict [("Python", PyVal.num 5)]) (.num 0)
      (.dict [("Python", PyVal.num 5)]) = .ok 1 :=
  c6_complexity_zero_guard [("Python", PyVal.num 5)] [("Python", PyVal.num 5)]
    (by with_unfolding_all rfl) (by with_unfolding_all rfl) (by with_unfolding_all rfl)

/-- C7: the language-score formula and the example given in the claim hold
(required C2 against candidate A1 gives fit 1/6, score `round(1/6,3) =
0.167`), **but "Native treated as 6" is false in the code**: both CEFR
lookups uppercase the query (`.strip().upper()`), and `"NATIVE"` misses the
mixed-case dict key `"Native"` (present, with the comment "Assuming native
is equivalent to C2"), so a `"Native"` level counts as 0 — required A1
against candidate Native scores 0.833 instead of the 1.0 that the claim (and the
comment in the code) prescribe. -/
theorem c7_language_formula_and_native :
    calculate_language_coverage (.dict [("English", .str "C2")])
        (.dict [("English", .str "A1")]) = .ok (167/1000) ∧
    langLevelFit (.str "C2") (.str "A1") = 1/6 ∧
    calculate_language_coverage (.dict [("English", .str "A1")])
        (.dict [("English", .str "Native")]) = .ok (833/1000) ∧
    cefrNum (.str "C2") = 6 ∧ cefrNum (.str "A1") = 1 ∧ cefrNum (.str "Native") = 0 ∧
    lookupStr cefr_scale "Native" = some 6 := by
  refine ⟨?_, ?_, ?_, ?_, ?_, ?_, ?_⟩ <;> with_unfolding_all rfl

/-- C10 (implicit): `fuzzy_match` returns `False` whenever either input is
falsy — empty string or `None` — for every threshold, *including two
identical empty strings*; consequently an on-site or hybrid project with an
empty location field can never obtain a location match and its
`location_score` is 0.0. -/
theorem c10_empty_never_fuzzy_matches :
    (∀ (t : PyVal) (thr : ℚ),
      fuzzy_match (.str "") t thr = false ∧ fuzzy_match t (.str "") thr = false ∧
      fuzzy_match PyVal.none t thr = false ∧ fuzzy_match t PyVal.none thr = false) ∧
    (∀ pflex eloc eflex : PyVal,
      normalize_flexibility pflex = 1 ∨ normalize_flexibility pflex = 2 →
      location_score (.str "") pflex eloc eflex = 0) := by
  have hfm : ∀ (t : PyVal) (thr : ℚ), fuzzy_match (.str "") t thr = false := by
    intro t thr
    unfold fuzzy_match
    simp [pyTruthy]
  constructor
  · intro t thr
    refine ⟨hfm t thr, ?_, ?_, ?_⟩ <;>
    · unfold fuzzy_match
      simp [pyTruthy]
  · intro pflex eloc eflex h
    unfold location_score
    rcases h with h | h <;>
      simp [h, hfm]

/-- C10 (witness): an on-site project with an empty location against an
on-site candidate in Berlin scores 0.0. -/
theorem c10_witness :
    location_score (.str "") (.str "On-site") (.str "Berlin") (.str "On-site") = 0 :=
  c10_empty_never_fuzzy_matches.2 (.str "On-site") (.str "Berlin") (.str "On-site")
    (Or.inr (by decide))

/-- C8 (witness): a small well-typed employee/project pair — the domain
checks evaluate to `true` and every clamped factor of the produced report is
in `[0,1]`. -/
theorem c8_witness :
    employeeDomainOK [("Core Competencies", PyVal.dict [("Python", PyVal.num 5)]),
        ("Cultural Awareness", PyVal.num 7), ("document_score", PyVal.num 0.9)] = true ∧
    projectDomainOK [("Required Skills and Expertise", PyVal.dict [("Python", PyVal.num 7)]),
        ("Complexity", PyVal.num 5)] = true ∧
    (∃ r, score_employee_against_project 0
        [("Core Competencies", PyVal.dict [("Python", PyVal.num 5)]),
          ("Cultural Awareness", PyVal.num 7), ("document_score", PyVal.num 0.9)]
        [("Required Skills and Expertise", PyVal.dict [("Python", PyVal.num 7)]),
          ("Complexity", PyVal.num 5)]
        SCORING_WEIGHTS = .ok r ∧
      ∀ p ∈ r.scores, p.1 ≠ "RetrieverScore" → 0 ≤ p.2 ∧ p.2 ≤ 1) :=
  ⟨by with_unfolding_all rfl, by with_unfolding_all rfl,
   c8_score_range 0
     [("Core Competencies", PyVal.dict [("Python", PyVal.num 5)]),
       ("Cultural Awareness", PyVal.num 7), ("document_score", PyVal.num 0.9)]
     [("Required Skills and Expertise", PyVal.dict [("Python", PyVal.num 7)]),
       ("Complexity", PyVal.num 5)]
     SCORING_WEIGHTS (by with_unfolding_all rfl) (by with_unfolding_all rfl)⟩
